import Mathlib

/-!
Verification of the ZIP artifact resolution, pattern matching, safe extraction
and workflow orchestration logic of the rent-roll MCP server
(`MCP/agent-mcp/server.py`).

Python strings are modelled as `List Char` (`Str`), so that every definition
is executable by the kernel on concrete inputs.  Each definition below embeds
the Python function of the same (snake-cased) name; comments cite the source.
-/

abbrev Str := List Char

/-- The backslash character, written without an escape sequence. -/
def backslashChar : Char := Char.ofNat 92

/-- Python `s.replace(old, new)` for single-character `old`/`new`:
equivalent to a character map. -/
def replaceChar (a b : Char) (s : Str) : Str :=
  s.map (fun c => if c = a then b else c)

/-- Python `s.split(sep)` for a single-character separator.
`splitOnChar '/' "" = [""]` and separators at the ends produce empty pieces,
exactly as in Python. -/
def splitOnChar (sep : Char) : Str → List Str
  | [] => [[]]
  | c :: t =>
    let r := splitOnChar sep t
    if c = sep then [] :: r
    else
      match r with
      | [] => [[c]]
      | h :: rest => (c :: h) :: rest

/-- `PurePosixPath(s).parts` for a relative POSIX path string: split on `/`,
dropping empty segments and `.` segments (parent segments `..` are kept). -/
def posixParts (s : Str) : List Str :=
  (splitOnChar '/' s).filter (fun seg => seg ≠ [] && seg ≠ ['.'])

/-- Truthiness of Python `s.strip()`: true iff `s` has a non-whitespace
character. -/
def pyStripTruthy (s : Str) : Bool :=
  s.any (fun c => !c.isWhitespace)

/-- Python `s.strip()`: remove leading and trailing whitespace. -/
def pyStrip (s : Str) : Str :=
  ((s.dropWhile Char.isWhitespace).reverse.dropWhile Char.isWhitespace).reverse

/-- Python `s.lower()` (ASCII-adequate model). -/
def pyLower (s : Str) : Str :=
  s.map Char.toLower

/-- Python substring test `needle in hay`. -/
def containsSub (needle : Str) : Str → Bool
  | [] => needle.isPrefixOf []
  | c :: t => needle.isPrefixOf (c :: t) || containsSub needle t

/-!
## Glob matching (`fnmatch.fnmatchcase` as used by `PurePosixPath.match`)

`fnmatch.translate` compiles a glob pattern to a regex: `*` becomes `.*`,
`?` becomes `.`, and `[...]` becomes a regex character class (with a leading
`!` for negation, and a `]` allowed as the first member).  We model the
compiled form as a token list and match with full-string semantics.
-/

inductive GlobTok where
  | star
  | anyChar
  | charClass (neg : Bool) (body : Str)
  | lit (c : Char)
deriving DecidableEq

/-- Split a character-class body at the first `]`, returning the body and the
remainder after the `]`; `none` when no closing `]` exists. -/
def splitAtRBracket : Str → Option (Str × Str)
  | [] => none
  | ']' :: t => some ([], t)
  | c :: t =>
    match splitAtRBracket t with
    | some (b, r) => some (c :: b, r)
    | none => none

/-- Scan a character class after an opening `[`: an optional leading `!`
negates, and a `]` directly after that is part of the class body
(mirrors the index scan in `fnmatch.translate`). -/
def scanClass (cs : Str) : Option (Bool × Str × Str) :=
  match cs with
  | '!' :: ']' :: t =>
    match splitAtRBracket t with
    | some (b, r) => some (true, ']' :: b, r)
    | none => none
  | '!' :: t =>
    match splitAtRBracket t with
    | some (b, r) => some (true, b, r)
    | none => none
  | ']' :: t =>
    match splitAtRBracket t with
    | some (b, r) => some (false, ']' :: b, r)
    | none => none
  | t =>
    match splitAtRBracket t with
    | some (b, r) => some (false, b, r)
    | none => none

/-- Membership of a character in a class body, with `a-b` ranges as in a
regex character class (a `-` at either end is literal). -/
def classBodyMem : Str → Char → Bool
  | a :: '-' :: b :: rest, c => (a ≤ c && c ≤ b) || classBodyMem rest c
  | a :: rest, c => (a = c) || classBodyMem rest c
  | [], _ => false

def classMem (neg : Bool) (body : Str) (c : Char) : Bool :=
  if neg then !(classBodyMem body c) else classBodyMem body c

/-- Tokenize a glob pattern; `fuel` bounds the recursion and is always called
with the pattern length, which suffices because class scanning consumes at
least one character. An unmatched `[` is a literal, as in `fnmatch`. -/
def globTokensAux : Nat → Str → List GlobTok
  | 0, _ => []
  | _, [] => []
  | Nat.succ f, '*' :: t => GlobTok.star :: globTokensAux f t
  | Nat.succ f, '?' :: t => GlobTok.anyChar :: globTokensAux f t
  | Nat.succ f, '[' :: t =>
    match scanClass t with
    | some (n, b, r) => GlobTok.charClass n b :: globTokensAux f r
    | none => GlobTok.lit '[' :: globTokensAux f t
  | Nat.succ f, c :: t => GlobTok.lit c :: globTokensAux f t

def globTokens (pat : Str) : List GlobTok := globTokensAux pat.length pat

/-- Full-string matching of a token list against a string; `star` matches any
(possibly empty) sequence of characters, expressed via suffixes. -/
def tokMatch : List GlobTok → Str → Bool
  | [], s => s.isEmpty
  | GlobTok.star :: tr, s => s.tails.any (fun suf => tokMatch tr suf)
  | GlobTok.anyChar :: tr, s =>
    match s with
    | [] => false
    | _ :: sr => tokMatch tr sr
  | GlobTok.charClass n b :: tr, s =>
    match s with
    | [] => false
    | c :: sr => classMem n b c && tokMatch tr sr
  | GlobTok.lit p :: tr, s =>
    match s with
    | [] => false
    | c :: sr => (p = c) && tokMatch tr sr

/-- `fnmatch.fnmatchcase(seg, pat)` (POSIX: no case folding). -/
def fnmatchcase (seg pat : Str) : Bool := tokMatch (globTokens pat) seg

/-- `PurePosixPath(name).match(pat)` for relative `name` and `pat` (the only
shapes reachable in `_match_zip_patterns`, which strips leading slashes from
both).  An empty pattern raises `ValueError`, modelled as `none`.  A relative
pattern matches from the right: its segments are compared against the final
segments of the path. -/
def pathMatch (nameStr patStr : Str) : Option Bool :=
  let patParts := posixParts patStr
  if patParts = [] then none
  else
    let nameParts := posixParts nameStr
    if nameParts.length < patParts.length then some false
    else some ((nameParts.reverse.zip patParts.reverse).all
      (fun pr => fnmatchcase pr.1 pr.2))

/-- Normalization applied by `_match_zip_patterns` to entry names and to each
pattern: backslashes to slashes, then `lstrip("/")`. -/
def normEntryName (s : Str) : Str :=
  (replaceChar backslashChar '/' s).dropWhile (· = '/')

/-- One iteration of the pattern loop in `_match_zip_patterns`
(server.py lines 237-252), on an already-normalized entry name `nm`:
an empty pattern is skipped (`some false` here, so the loop continues);
`**` and `**/*` match everything; a pattern ending in `/**` matches the
literal stem and everything below it; otherwise (and as a fallback for
`/**` patterns whose stem did not match) `PurePosixPath.match` decides.
`none` models the `ValueError` raised on a pattern with no segments. -/
def matchOneNorm (nm : Str) (pattern : Str) : Option Bool :=
  if pattern = [] then some false
  else if normEntryName pattern = ['*', '*'] ∨
          normEntryName pattern = ['*', '*', '/', '*'] then some true
  else if (['/', '*', '*'] : Str).isSuffixOf (normEntryName pattern) then
    (if nm = (normEntryName pattern).take ((normEntryName pattern).length - 3) ∨
        ((normEntryName pattern).take ((normEntryName pattern).length - 3)
          ++ ['/']).isPrefixOf nm
     then some true
     else pathMatch nm (normEntryName pattern))
  else pathMatch nm (normEntryName pattern)

/-- The matcher applied to one pattern with the entry-name normalization of
`_match_zip_patterns` included. -/
def matchOnePattern (entryName pattern : Str) : Option Bool :=
  matchOneNorm (normEntryName entryName) pattern

/-- The pattern loop of `_match_zip_patterns`: first `some true` wins,
a raising pattern (`none`) aborts, otherwise `some false`. -/
def matchPatternsFrom (nm : Str) : List Str → Option Bool
  | [] => some false
  | p :: rest =>
    match matchOneNorm nm p with
    | none => none
    | some true => some true
    | some false => matchPatternsFrom nm rest

/-- `_match_zip_patterns(entry_name, patterns)` (server.py lines 232-253).
An empty pattern list matches nothing. -/
def matchZipPatterns (entryName : Str) (patterns : List Str) : Option Bool :=
  if patterns = [] then some false
  else matchPatternsFrom (normEntryName entryName) patterns

/-- `_safe_zip_member_name(name)` (server.py lines 256-267): `none` for an
unsafe member name, otherwise the normalized safe relative name. -/
def safeZipMemberName (name : Str) : Option Str :=
  if replaceChar backslashChar '/' name = [] ∨
     (replaceChar backslashChar '/' name).headD ' ' = '/' ∨
     (replaceChar backslashChar '/' name).headD ' ' = backslashChar then none
  else if ((splitOnChar '/' (replaceChar backslashChar '/' name)).headD
      []).contains ':' then none
  else if (posixParts (replaceChar backslashChar '/' name)).contains
      (['.', '.'] : Str) then none
  else some (List.intercalate ['/']
    (posixParts (replaceChar backslashChar '/' name)))

/-!
## Safe extraction engine (`_extract_zip_members`, server.py lines 985-1041)

Filesystem paths are modelled as lists of path segments of an absolute path.
`Path.resolve(strict=False)` is modelled lexically (no symlinks): empty and
`.` segments disappear and `..` pops the previous segment.
-/

/-- One archive member as enumerated by `zipfile.ZipFile.infolist()`. -/
structure ZipInfo where
  filename : Str
  fileSize : Nat
  compressSize : Nat
deriving DecidableEq

/-- `ZipInfo.is_dir()`: the stored filename ends with a slash. -/
def zipInfoIsDir (i : ZipInfo) : Bool :=
  (['/'] : Str).isSuffixOf i.filename

def resolveSegsAux : List Str → List Str → List Str
  | acc, [] => acc.reverse
  | acc, s :: t =>
    if s = [] ∨ s = ['.'] then resolveSegsAux acc t
    else if s = ['.', '.'] then resolveSegsAux (acc.drop 1) t
    else resolveSegsAux (s :: acc) t

/-- Lexical model of `Path.resolve(strict=False)` on an absolute path given
as its list of segments. -/
def resolveSegs (p : List Str) : List Str := resolveSegsAux [] p

/-- `r in p.parents` for resolved absolute paths: `r` is a strict prefix of
`p`'s segments. -/
def isAncestorOf (r p : List Str) : Bool :=
  r.isPrefixOf p && decide (r.length < p.length)

/-- The fate of one archive member inside the extraction loop. -/
inductive MemberAction where
  | skippedUnsafe
  | skippedDir
  | skippedFiltered
  | skippedEscape
  | extracted (dest : List Str)
deriving DecidableEq

/-- One iteration of the member loop of `_extract_zip_members`
(server.py lines 999-1036), as a pure decision: the path-safety check runs
first, then the directory skip, then the pattern filter, then the
resolve-and-verify containment guard.  `none` models the `ValueError`
propagating out of `_match_zip_patterns`. -/
def memberAction (outputDir : List Str) (patterns : List Str)
    (info : ZipInfo) : Option MemberAction :=
  match safeZipMemberName (replaceChar backslashChar '/' info.filename) with
  | none => some MemberAction.skippedUnsafe
  | some safeName =>
    if zipInfoIsDir info then some MemberAction.skippedDir
    else
      match matchZipPatterns safeName patterns with
      | none => none
      | some false => some MemberAction.skippedFiltered
      | some true =>
        if resolveSegs (outputDir ++ posixParts safeName) ≠ resolveSegs outputDir ∧
           isAncestorOf (resolveSegs outputDir)
             (resolveSegs (outputDir ++ posixParts safeName)) = false
        then some MemberAction.skippedEscape
        else some (MemberAction.extracted (resolveSegs (outputDir ++ posixParts safeName)))

/-- The filesystem writes performed for a member: only an extracted member
touches the filesystem; every skipped member performs no operation. -/
def memberFsWrites : MemberAction → List (List Str)
  | MemberAction.extracted d => [d]
  | _ => []

/-- A structured warning record as appended by `_extract_zip_members`. -/
structure ZipWarning where
  wtype : Str
  entry : Str
  reason : Str
deriving DecidableEq

/-- The result shape of `_extract_zip_members`. -/
structure ExtractOutcome where
  extracted_files : List (List Str)
  warnings : List ZipWarning
deriving DecidableEq

def unsafeWarning (i : ZipInfo) : ZipWarning :=
  ⟨("zip_slip_skipped".data), replaceChar backslashChar '/' i.filename,
   ("unsafe_member_name".data)⟩

def escapeWarning (i : ZipInfo) : ZipWarning :=
  ⟨("zip_slip_skipped".data), replaceChar backslashChar '/' i.filename,
   ("path_escapes_output_dir".data)⟩

/-- Effect of one member on the accumulated outcome. -/
def extractStep (outputDir patterns : List Str) (acc : ExtractOutcome)
    (info : ZipInfo) : Option ExtractOutcome :=
  match memberAction outputDir patterns info with
  | none => none
  | some MemberAction.skippedUnsafe =>
    some { acc with warnings := acc.warnings ++ [unsafeWarning info] }
  | some MemberAction.skippedDir => some acc
  | some MemberAction.skippedFiltered => some acc
  | some MemberAction.skippedEscape =>
    some { acc with warnings := acc.warnings ++ [escapeWarning info] }
  | some (MemberAction.extracted d) =>
    some { acc with extracted_files := acc.extracted_files ++ [d] }

def extractFrom (outputDir patterns : List Str) :
    ExtractOutcome → List ZipInfo → Option ExtractOutcome
  | acc, [] => some acc
  | acc, i :: t =>
    match extractStep outputDir patterns acc i with
    | none => none
    | some acc2 => extractFrom outputDir patterns acc2 t

/-- `_extract_zip_members(zip_path, patterns=patterns, output_dir=output_dir)`
over the archive's member list; `none` models an exception escaping the loop
(in which case no result dict is returned). -/
def extractZipMembers (outputDir patterns : List Str)
    (infos : List ZipInfo) : Option ExtractOutcome :=
  extractFrom outputDir patterns ⟨[], []⟩ infos

/-!
## Manifest builder (`_build_zip_manifest`, server.py lines 958-982)
-/

structure ManifestEntry where
  name : Str
  size : Nat
  compressedSize : Nat
  isDir : Bool
deriving DecidableEq

def manifestEntryOf (i : ZipInfo) : ManifestEntry :=
  ⟨replaceChar backslashChar '/' i.filename, i.fileSize, i.compressSize,
   zipInfoIsDir i⟩

/-- `_build_zip_manifest`: enumerate all entries in archive order and filter
the matched ones with `_match_zip_patterns` on the slash-normalized stored
name (no safety check and no directory skip here).  `none` models the
`ValueError` propagating out of the matcher. -/
def buildZipManifest (patterns : List Str) :
    List ZipInfo → Option (List ManifestEntry × List ManifestEntry)
  | [] => some ([], [])
  | i :: t =>
    let e := manifestEntryOf i
    match matchZipPatterns e.name patterns with
    | none => none
    | some b =>
      match buildZipManifest patterns t with
      | none => none
      | some (es, ms) => some (e :: es, if b then e :: ms else ms)

/-- A member is selected for extraction when it survives the safety check,
the directory skip and the pattern filter (the containment guard is a later
per-member veto, so both of those actions count as selected). -/
def extractionSelects (outputDir patterns : List Str) (i : ZipInfo) : Bool :=
  match memberAction outputDir patterns i with
  | some (MemberAction.extracted _) => true
  | some MemberAction.skippedEscape => true
  | _ => false

/-!
## Status payloads and the ZIP pointer resolver
(`_extract_zip_pointer`, server.py lines 177-224)

Payloads are modelled as JSON-like values; a payload itself is the field list
of a JSON object (Python `dict` keys are unique, so first-match lookup is
exact).
-/

inductive JVal where
  | jnull
  | jbool (b : Bool)
  | jnum (n : Int)
  | jstr (s : Str)
  | jarr (elems : List JVal)
  | jobj (fields : List (Str × JVal))

/-- `d.get(k)`: `none` when the key is absent. -/
def jget (fields : List (Str × JVal)) (k : Str) : Option JVal :=
  match fields.find? (fun f => f.1 = k) with
  | some f => some f.2
  | none => none

/-- Python `str(d.get("type", ""))`: the default is the empty string; a string
passes through; other values render to text that is never equal to `"zip"`
(a list or dict repr starts with a bracket, `None`/`True`/`False` are
capitalized words, numbers are digits). -/
def pyStrOfOpt : Option JVal → Str
  | none => []
  | some (JVal.jstr s) => s
  | some JVal.jnull => ("None".data)
  | some (JVal.jbool true) => ("True".data)
  | some (JVal.jbool false) => ("False".data)
  | some (JVal.jnum n) => (toString n).data
  | some (JVal.jarr _) => ("[...]".data)
  | some (JVal.jobj _) => ("{...}".data)

/-- The resolver's result: canonical snake_case pointer fields. -/
structure ZipPointer where
  zipDownloadUrl : Option Str
  zipPresignedExpiresAt : Option Str
deriving DecidableEq

/-- First loop of the legacy scan: `isinstance(bd, dict)` and
`str(bd.get("type", "")).lower() == "zip"`. -/
def isZipTypedRecord (v : JVal) : Bool :=
  match v with
  | JVal.jobj f => pyLower (pyStrOfOpt (jget f ("type".data))) = ("zip".data)
  | _ => false

/-- Second loop of the legacy scan: a dict record whose `downloadUrl` is a
string ending in `.zip` case-insensitively. -/
def isZipUrlRecord (v : JVal) : Bool :=
  match v with
  | JVal.jobj f =>
    match jget f ("downloadUrl".data) with
    | some (JVal.jstr dl) => (".zip".data).isSuffixOf (pyLower dl)
    | _ => false
  | _ => false

/-- The legacy record chosen by `_extract_zip_pointer`: the first zip-typed
record, else the first record with a `.zip` URL. -/
def legacyZipEntry (bds : List JVal) : Option JVal :=
  match bds.find? isZipTypedRecord with
  | some v => some v
  | none => bds.find? isZipUrlRecord

/-- Read a string field of a selected record, requiring
`isinstance(x, str) and x.strip()` as the code does. -/
def recordStrField (v : JVal) (k : Str) : Option Str :=
  match v with
  | JVal.jobj f =>
    match jget f k with
    | some (JVal.jstr s) => if pyStripTruthy s then some s else none
    | _ => none
  | _ => none

/-- The transitional fallback of `_extract_zip_pointer`
(server.py lines 200-224). -/
def legacyPointer (payload : List (Str × JVal)) : ZipPointer :=
  match jget payload ("batchDownloads".data) with
  | some (JVal.jarr bds) =>
    match legacyZipEntry bds with
    | some v =>
      ⟨recordStrField v ("downloadUrl".data), recordStrField v ("expiresAt".data)⟩
    | none => ⟨none, none⟩
  | _ => ⟨none, none⟩

/-- The canonical sibling expiry: `payload.get("presigned_url_expiry")` when
it is a non-blank string. -/
def canonicalExpiry (payload : List (Str × JVal)) : Option Str :=
  match jget payload ("presigned_url_expiry".data) with
  | some (JVal.jstr ex) => if pyStripTruthy ex then some ex else none
  | _ => none

/-- `_extract_zip_pointer(payload)` (server.py lines 177-224): the canonical
`outputs.download_url` wins and returns immediately; otherwise the legacy
`batchDownloads` fallback is scanned. -/
def extractZipPointer (payload : List (Str × JVal)) : ZipPointer :=
  match jget payload ("outputs".data) with
  | some (JVal.jobj outs) =>
    match jget outs ("download_url".data) with
    | some (JVal.jstr dl) =>
      if pyStripTruthy dl then ⟨some dl, canonicalExpiry payload⟩
      else legacyPointer payload
    | _ => legacyPointer payload
  | _ => legacyPointer payload

/-- A payload carries a canonical pointer when `outputs` is a dict whose
`download_url` is a non-blank string. -/
def hasCanonicalPointer (payload : List (Str × JVal)) : Bool :=
  match jget payload ("outputs".data) with
  | some (JVal.jobj outs) =>
    match jget outs ("download_url".data) with
    | some (JVal.jstr dl) => pyStripTruthy dl
    | _ => false
  | _ => false

/-!
## Workflow orchestration (`process_rent_roll_workflow`)
-/

/-- `_normalize_status(value)` for string statuses (server.py lines 159-163). -/
def normalizeStatus (s : Str) : Str := pyLower (pyStrip s)

/-- `_is_terminal_status(status)` (server.py lines 166-174). -/
def isTerminalStatus (s : Str) : Bool :=
  let n := normalizeStatus s
  n = ("complete".data) || n = ("completed".data) || n = ("failed".data) ||
  n = ("partially complete".data) || n = ("partially completed".data)

/-- One observed status response during polling. -/
structure PollResp where
  success : Bool
  status : Str
deriving DecidableEq

/-- One iteration of the polling loop: the response of `check_batch_status`
and the value of the monotonic clock at the deadline check (line 1251)
of that iteration. -/
structure PollEvent where
  resp : PollResp
  timeAfter : Nat
deriving DecidableEq

/-- How the polling loop (server.py lines 1238-1254) is left. -/
inductive PollExit where
  | statusError (r : PollResp)
  | terminal (r : PollResp)
  | deadlineHit (r : PollResp) (t : Nat)
  | ranOut
deriving DecidableEq

/-- The polling loop: a failed status query returns immediately; a terminal
status breaks; reaching the deadline breaks; otherwise sleep and poll again.
`ranOut` stands for executions longer than the supplied event list. -/
def pollLoop (deadline : Nat) : List PollEvent → PollExit
  | [] => PollExit.ranOut
  | e :: rest =>
    if e.resp.success = false then PollExit.statusError e.resp
    else if isTerminalStatus e.resp.status then PollExit.terminal e.resp
    else if deadline ≤ e.timeAfter then PollExit.deadlineHit e.resp e.timeAfter
    else pollLoop deadline rest

/-- The distinct result kinds relevant after polling: a status-query failure
is returned unchanged (generic error, e.g. a network error), the timeout
check at line 1309 produces the timeout-specific failure, and otherwise the
workflow proceeds with the last status snapshot. -/
inductive WorkflowOutcome where
  | errorReturn (r : PollResp)
  | timedOut
  | proceed (last : PollResp)
deriving DecidableEq

/-- The decision made after the polling loop (server.py lines 1244-1245 and
1309-1313), with `finalTime` the monotonic reading at line 1309. -/
def afterPolling (deadline finalTime : Nat) : PollExit → Option WorkflowOutcome
  | PollExit.statusError r => some (WorkflowOutcome.errorReturn r)
  | PollExit.terminal r =>
    some (if deadline ≤ finalTime ∧ isTerminalStatus r.status = false
          then WorkflowOutcome.timedOut else WorkflowOutcome.proceed r)
  | PollExit.deadlineHit r _ =>
    some (if deadline ≤ finalTime ∧ isTerminalStatus r.status = false
          then WorkflowOutcome.timedOut else WorkflowOutcome.proceed r)
  | PollExit.ranOut => none

/-- Result shape of one ZIP fetch/extract operation attempt, as inspected by
the refresh logic. -/
structure ZipOpResult where
  success : Bool
  httpStatus : Option Int
deriving DecidableEq

/-- The re-queried status, as inspected by the refresh logic: its
canonical `zip_download_url` field (set by `check_batch_status` through
`_extract_zip_pointer`). -/
structure RefreshStatusResp where
  success : Bool
  zipDownloadUrl : Option Str
deriving DecidableEq

/-- Python `a or b` for an optional string `a` and string `b`. -/
def pyOrStr (a : Option Str) (b : Str) : Str :=
  match a with
  | some s => if s = [] then b else s
  | none => b

/-- Execution trace of the fetch-with-one-refresh block. -/
structure ZipPhaseTrace where
  finalResult : ZipOpResult
  fetchUrls : List Str
  statusRequeries : Nat
deriving DecidableEq

/-- The fetch/refresh block of `process_rent_roll_workflow`
(server.py lines 1342-1358): run the ZIP operation once; only when it failed
with HTTP 403 re-query the status once and, if that succeeded and yielded a
usable URL, run the ZIP operation exactly once more with the refreshed
pointer.  `fetchOp n u` is the oracle result of the `n`-th fetch invocation
on URL `u`; `fetchUrls` records each invocation. -/
def zipOpWithOneRefresh (url : Str) (fetchOp : Nat → Str → ZipOpResult)
    (requery : RefreshStatusResp) : ZipPhaseTrace :=
  if (fetchOp 0 url).success = false ∧ (fetchOp 0 url).httpStatus = some 403 then
    if requery.success then
      (if pyOrStr requery.zipDownloadUrl url ≠ [] then
        ⟨fetchOp 1 (pyOrStr requery.zipDownloadUrl url),
         [url, pyOrStr requery.zipDownloadUrl url], 1⟩
      else ⟨fetchOp 0 url, [url], 1⟩)
    else ⟨fetchOp 0 url, [url], 1⟩
  else ⟨fetchOp 0 url, [url], 0⟩

/-!
## Download credential handling
(`_is_presigned_s3_url`, `_download_zip_to_temp_file`,
`_download_processed_files_impl`)
-/

/-- `_is_presigned_s3_url(url)` (server.py lines 227-229). -/
def isPresignedS3Url (url : Str) : Bool :=
  containsSub ("X-Amz-".data) url || containsSub ("amazonaws.com".data) url

/-- Headers attached by `_download_zip_to_temp_file` (server.py lines
893-898): the bearer header only when the URL is not detected as pre-signed
and an API key is available (`_get_api_key_optional` may return `None`). -/
def downloadZipAuthHeaders (url : Str) (apiKey : Option Str) :
    List (Str × Str) :=
  if isPresignedS3Url url then []
  else
    match apiKey with
    | some k => if k = [] then [] else [(("Authorization".data), ("Bearer ".data) ++ k)]
    | none => []

/-- One HTTP request issued by `_download_processed_files_impl`. -/
structure HttpRequest where
  url : Str
  hasAuthHeader : Bool
deriving DecidableEq

/-- The requests issued for one URL by `_download_processed_files_impl`
(server.py lines 797-812): the first request carries the bearer header iff
the URL is not detected as pre-signed; when a pre-signed-detected URL answers
401, the same URL is retried once with the bearer header. `firstStatus` is
the HTTP status of the first response. -/
def downloadProcessedRequestsForUrl (url : Str) (firstStatus : Int) :
    List HttpRequest :=
  let isPres := isPresignedS3Url url
  let first : HttpRequest := ⟨url, !isPres⟩
  if firstStatus = 401 ∧ isPres then [first, ⟨url, true⟩] else [first]

/-!
## Helper lemmas about the extraction engine
-/

/-- The unsafe-name conditions exactly as the specification lists them, on a
slash-normalized member name. -/
def unsafeNameConditions (n : Str) : Prop :=
  n = [] ∨ n.headD ' ' = '/' ∨
  ((splitOnChar '/' n).headD []).contains ':' = true ∨
  (posixParts n).contains (['.', '.'] : Str) = true

theorem replaceChar_backslash_idem (s : Str) :
    replaceChar backslashChar '/' (replaceChar backslashChar '/' s) =
    replaceChar backslashChar '/' s := by
  have hne : ('/' : Char) ≠ backslashChar := by decide
  induction s with
  | nil => rfl
  | cons c t ih =>
    simp only [replaceChar, List.map_cons, List.map_map] at *
    by_cases h : c = backslashChar
    · simp [h, hne, ih]
    · simp [h, ih]

theorem safeZipMemberName_none_of_unsafeConds (n : Str)
    (hn : replaceChar backslashChar '/' n = n)
    (h : unsafeNameConditions n) : safeZipMemberName n = none := by
  unfold safeZipMemberName
  rw [hn]
  by_cases h1 : n = [] ∨ n.headD ' ' = '/' ∨ n.headD ' ' = backslashChar
  · rw [if_pos h1]
  · rw [if_neg h1]
    by_cases h2 : (((splitOnChar '/' n).headD []).contains ':') = true
    · rw [h2]
      simp
    · have h4 : ((posixParts n).contains (['.', '.'] : Str)) = true := by
        rcases h with hc | hc | hc | hc
        · exact absurd (Or.inl hc) h1
        · exact absurd (Or.inr (Or.inl hc)) h1
        · exact absurd hc h2
        · exact hc
      rw [if_neg h2, if_pos h4]

theorem memberAction_of_unsafeName (d ps : List Str) (i : ZipInfo)
    (h : safeZipMemberName (replaceChar backslashChar '/' i.filename) = none) :
    memberAction d ps i = some MemberAction.skippedUnsafe := by
  simp [memberAction, h]

theorem memberAction_extracted_guard (d ps : List Str) (i : ZipInfo)
    (p : List Str)
    (h : memberAction d ps i = some (MemberAction.extracted p)) :
    p = resolveSegs d ∨ isAncestorOf (resolveSegs d) p = true := by
  unfold memberAction at h
  split at h
  · simp at h
  · split at h
    · simp at h
    · split at h
      · simp at h
      · simp at h
      · split at h
        · simp at h
        · rename_i hguard
          simp only [Option.some.injEq, MemberAction.extracted.injEq] at h
          rw [Decidable.not_and_iff_or_not] at hguard
          rcases hguard with hg | hg
          · left
            rw [← h]
            simpa using hg
          · right
            rw [← h]
            simpa using hg

theorem extractStep_warn_mono (d ps : List Str) (acc acc2 : ExtractOutcome)
    (i : ZipInfo) (h : extractStep d ps acc i = some acc2) :
    ∀ w ∈ acc.warnings, w ∈ acc2.warnings := by
  intro w hw
  unfold extractStep at h
  split at h <;>
    first
      | exact Option.noConfusion h
      | (simp only [Option.some.injEq] at h
         subst h
         exact List.mem_append_left _ hw)
      | (simp only [Option.some.injEq] at h
         subst h
         exact hw)

theorem extractStep_extracted_mem (d ps : List Str) (acc acc2 : ExtractOutcome)
    (i : ZipInfo) (h : extractStep d ps acc i = some acc2) :
    ∀ p ∈ acc2.extracted_files,
      p ∈ acc.extracted_files ∨ memberAction d ps i = some (MemberAction.extracted p) := by
  intro p hp
  unfold extractStep at h
  split at h
  · simp at h
  · rename_i ha
    simp only [Option.some.injEq] at h
    rw [← h] at hp
    exact Or.inl hp
  · rename_i ha
    simp only [Option.some.injEq] at h
    rw [← h] at hp
    exact Or.inl hp
  · rename_i ha
    simp only [Option.some.injEq] at h
    rw [← h] at hp
    exact Or.inl hp
  · rename_i ha
    simp only [Option.some.injEq] at h
    rw [← h] at hp
    exact Or.inl hp
  · rename_i dd ha
    simp only [Option.some.injEq] at h
    rw [← h] at hp
    simp only [List.mem_append, List.mem_singleton] at hp
    rcases hp with hp | hp
    · exact Or.inl hp
    · rw [hp]
      exact Or.inr ha

theorem extractStep_unsafeName (d ps : List Str) (acc : ExtractOutcome)
    (i : ZipInfo)
    (h : memberAction d ps i = some MemberAction.skippedUnsafe) :
    extractStep d ps acc i =
      some { acc with warnings := acc.warnings ++ [unsafeWarning i] } := by
  simp [extractStep, h]

theorem extractFrom_warn_mono (d ps : List Str) :
    ∀ (infos : List ZipInfo) (acc out : ExtractOutcome),
    extractFrom d ps acc infos = some out →
    ∀ w ∈ acc.warnings, w ∈ out.warnings := by
  intro infos
  induction infos with
  | nil =>
    intro acc out h w hw
    simp only [extractFrom, Option.some.injEq] at h
    rw [← h]
    exact hw
  | cons i t ih =>
    intro acc out h w hw
    simp only [extractFrom] at h
    cases hstep : extractStep d ps acc i with
    | none => rw [hstep] at h; simp at h
    | some acc2 =>
      rw [hstep] at h
      exact ih acc2 out h w (extractStep_warn_mono d ps acc acc2 i hstep w hw)

theorem extractFrom_extracted_mem (d ps : List Str) :
    ∀ (infos : List ZipInfo) (acc out : ExtractOutcome),
    extractFrom d ps acc infos = some out →
    ∀ p ∈ out.extracted_files,
      p ∈ acc.extracted_files ∨
      ∃ i ∈ infos, memberAction d ps i = some (MemberAction.extracted p) := by
  intro infos
  induction infos with
  | nil =>
    intro acc out h p hp
    simp only [extractFrom, Option.some.injEq] at h
    rw [← h] at hp
    exact Or.inl hp
  | cons i t ih =>
    intro acc out h p hp
    simp only [extractFrom] at h
    cases hstep : extractStep d ps acc i with
    | none => rw [hstep] at h; simp at h
    | some acc2 =>
      rw [hstep] at h
      rcases ih acc2 out h p hp with hm | ⟨j, hj, haj⟩
      · rcases extractStep_extracted_mem d ps acc acc2 i hstep p hm with hm2 | hm2
        · exact Or.inl hm2
        · exact Or.inr ⟨i, List.mem_cons_self i t, hm2⟩
      · exact Or.inr ⟨j, List.mem_cons_of_mem i hj, haj⟩

theorem extractFrom_unsafe_warn (d ps : List Str) :
    ∀ (infos : List ZipInfo) (acc out : ExtractOutcome),
    extractFrom d ps acc infos = some out →
    ∀ i ∈ infos, memberAction d ps i = some MemberAction.skippedUnsafe →
    unsafeWarning i ∈ out.warnings := by
  intro infos
  induction infos with
  | nil =>
    intro acc out h i hi
    simp at hi
  | cons j t ih =>
    intro acc out h i hi ha
    simp only [extractFrom] at h
    cases hstep : extractStep d ps acc j with
    | none => rw [hstep] at h; simp at h
    | some acc2 =>
      rw [hstep] at h
      rcases List.mem_cons.mp hi with hij | hit
      · rw [hij] at ha
        rw [extractStep_unsafeName d ps acc j ha] at hstep
        have hw : unsafeWarning j ∈ acc2.warnings := by
          simp only [Option.some.injEq] at hstep
          rw [← hstep]
          simp
        rw [← hij] at hw
        rw [hij]
        exact extractFrom_warn_mono d ps t acc2 out h (unsafeWarning j) (hij ▸ hw)
      · exact ih acc2 out h i hit ha

/-!
## Claim C1
-/

/-- C1: for every archive, pattern list and destination directory, any member
whose slash-normalized name is empty, starts with a separator, has a colon in
its first segment or contains a `..` segment is decided `skippedUnsafe` (an
action that performs no filesystem write) and leaves a path-safety warning in
the returned outcome; and every path in the returned `extracted_files` is,
after resolution, the resolved destination root or has it as an ancestor. -/
theorem c1_extraction_path_safety (dir pats : List Str) (infos : List ZipInfo)
    (out : ExtractOutcome)
    (h : extractZipMembers dir pats infos = some out) :
    (∀ i ∈ infos,
       unsafeNameConditions (replaceChar backslashChar '/' i.filename) →
       memberAction dir pats i = some MemberAction.skippedUnsafe ∧
       memberFsWrites MemberAction.skippedUnsafe = [] ∧
       unsafeWarning i ∈ out.warnings) ∧
    (∀ p ∈ out.extracted_files,
       p = resolveSegs dir ∨ isAncestorOf (resolveSegs dir) p = true) := by
  constructor
  · intro i hi hu
    have hsafe : safeZipMemberName (replaceChar backslashChar '/' i.filename) = none :=
      safeZipMemberName_none_of_unsafeConds _ (replaceChar_backslash_idem _) hu
    have ha := memberAction_of_unsafeName dir pats i hsafe
    exact ⟨ha, rfl, extractFrom_unsafe_warn dir pats infos ⟨[], []⟩ out h i hi ha⟩
  · intro p hp
    rcases extractFrom_extracted_mem dir pats infos ⟨[], []⟩ out h p hp with
      hm | ⟨i, _, ha⟩
    · simp at hm
    · exact memberAction_extracted_guard dir pats i p ha

def c1Dir : List Str := [("out".data)]

def c1Pats : List Str := [("processed-csv/**".data)]

def c1Infos : List ZipInfo :=
  [⟨("../evil.csv".data), 1, 1⟩, ⟨("processed-csv/a.csv".data), 2, 2⟩]

def c1Out : ExtractOutcome :=
  ⟨[[("out".data), ("processed-csv".data), ("a.csv".data)]],
   [⟨("zip_slip_skipped".data), ("../evil.csv".data),
     ("unsafe_member_name".data)⟩]⟩

/-- Witness for C1 on a concrete archive containing a traversal member and a
clean member. -/
theorem c1_extraction_path_safety_witness :
    (∀ i ∈ c1Infos,
       unsafeNameConditions (replaceChar backslashChar '/' i.filename) →
       memberAction c1Dir c1Pats i = some MemberAction.skippedUnsafe ∧
       memberFsWrites MemberAction.skippedUnsafe = [] ∧
       unsafeWarning i ∈ c1Out.warnings) ∧
    (∀ p ∈ c1Out.extracted_files,
       p = resolveSegs c1Dir ∨ isAncestorOf (resolveSegs c1Dir) p = true) :=
  c1_extraction_path_safety c1Dir c1Pats c1Infos c1Out (by decide)

/-!
## Claim C2
-/

/-- C2: when the payload has a nested `outputs` mapping with a non-blank
`download_url` string, the resolver returns exactly that URL paired with the
canonical sibling `presigned_url_expiry` (set only when present and
non-blank).  The result is fully determined by those two fields, so the
legacy `batchDownloads` list is never consulted; in particular the expiry is
unset whenever the canonical expiry field is absent, even if a legacy record
carries one. -/
theorem c2_canonical_pointer_wins (payload outs : List (Str × JVal))
    (dl : Str)
    (h1 : jget payload ("outputs".data) = some (JVal.jobj outs))
    (h2 : jget outs ("download_url".data) = some (JVal.jstr dl))
    (h3 : pyStripTruthy dl = true) :
    extractZipPointer payload = ⟨some dl, canonicalExpiry payload⟩ := by
  unfold extractZipPointer
  simp [h1, h2, h3]

def c2Payload : List (Str × JVal) :=
  [(("outputs".data),
    JVal.jobj [(("download_url".data), JVal.jstr ("https://cdn/batch.zip".data))]),
   (("batchDownloads".data),
    JVal.jarr [JVal.jobj
      [(("type".data), JVal.jstr ("zip".data)),
       (("downloadUrl".data), JVal.jstr ("https://legacy/old.zip".data)),
       (("expiresAt".data), JVal.jstr ("2030-01-01T00:00:00Z".data))]])]

/-- Witness for C2: a payload with a canonical URL, no canonical expiry, and
a legacy zip record that does carry an expiry — the resolver returns the
canonical URL with the expiry unset. -/
theorem c2_canonical_pointer_wins_witness :
    extractZipPointer c2Payload =
      ⟨some ("https://cdn/batch.zip".data), canonicalExpiry c2Payload⟩ ∧
    canonicalExpiry c2Payload = none :=
  ⟨c2_canonical_pointer_wins c2Payload
    [(("download_url".data), JVal.jstr ("https://cdn/batch.zip".data))]
    ("https://cdn/batch.zip".data) rfl rfl rfl, rfl⟩

/-!
## Claim C3
-/

theorem pyOrStr_ne_nil (a : Option Str) (b : Str) (h : b ≠ []) :
    pyOrStr a b ≠ [] := by
  unfold pyOrStr
  cases a with
  | none => exact h
  | some s =>
    by_cases hs : s = []
    · simp [hs, h]
    · simp [hs]

/-- C3: for any fetch oracle and re-queried status, the fetch/refresh block
issues at most two fetch invocations and at most one status re-query; the
re-query happens exactly when the first fetch failed with HTTP 403; a second
fetch happens exactly when, additionally, the re-query succeeded (the
refreshed pointer is then used); and when the second fetch happens its result
is final — a failure of the retried fetch is never retried again. -/
theorem c3_single_pointer_refresh (url : Str)
    (fetchOp : Nat → Str → ZipOpResult) (requery : RefreshStatusResp)
    (h : url ≠ []) :
    (zipOpWithOneRefresh url fetchOp requery).fetchUrls.length ≤ 2 ∧
    (zipOpWithOneRefresh url fetchOp requery).statusRequeries ≤ 1 ∧
    ((zipOpWithOneRefresh url fetchOp requery).statusRequeries = 1 ↔
      (fetchOp 0 url).success = false ∧ (fetchOp 0 url).httpStatus = some 403) ∧
    ((zipOpWithOneRefresh url fetchOp requery).fetchUrls.length = 2 ↔
      (fetchOp 0 url).success = false ∧ (fetchOp 0 url).httpStatus = some 403 ∧
      requery.success = true) ∧
    ((zipOpWithOneRefresh url fetchOp requery).fetchUrls.length = 2 →
      (zipOpWithOneRefresh url fetchOp requery).finalResult =
        fetchOp 1 (pyOrStr requery.zipDownloadUrl url)) := by
  have hnew := pyOrStr_ne_nil requery.zipDownloadUrl url h
  unfold zipOpWithOneRefresh
  by_cases hc : (fetchOp 0 url).success = false ∧
      (fetchOp 0 url).httpStatus = some 403
  · rw [if_pos hc]
    by_cases hr : requery.success = true
    · simp only [hr, if_true, if_pos hnew]
      refine ⟨by simp, by simp, by simp [hc], by simp [hc, hr], by simp⟩
    · rw [if_neg hr]
      refine ⟨by simp, by simp, by simp [hc], by simp [hc, hr], ?_⟩
      intro hl
      simp at hl
  · rw [if_neg hc]
    refine ⟨by simp, by simp, ?_, ?_, by simp⟩
    · constructor
      · intro hl
        simp at hl
      · intro hx
        exact absurd hx hc
    · constructor
      · intro hl
        simp at hl
      · intro ⟨h1, h2, _⟩
        exact absurd ⟨h1, h2⟩ hc

def c3Url : Str := ("https://stale/batch.zip".data)

def c3FetchOp : Nat → Str → ZipOpResult := fun n _ =>
  if n = 0 then ⟨false, some 403⟩ else ⟨false, some 500⟩

def c3Requery : RefreshStatusResp :=
  ⟨true, some ("https://fresh/batch.zip".data)⟩

/-- Witness for C3: the first fetch fails with 403, the re-query succeeds,
and the retried fetch fails again — the trace still holds exactly two fetch
invocations and one status re-query. -/
theorem c3_single_pointer_refresh_witness :
    c3Url ≠ [] ∧
    ((zipOpWithOneRefresh c3Url c3FetchOp c3Requery).fetchUrls.length ≤ 2 ∧
     (zipOpWithOneRefresh c3Url c3FetchOp c3Requery).statusRequeries ≤ 1 ∧
     ((zipOpWithOneRefresh c3Url c3FetchOp c3Requery).statusRequeries = 1 ↔
       (c3FetchOp 0 c3Url).success = false ∧
       (c3FetchOp 0 c3Url).httpStatus = some 403) ∧
     ((zipOpWithOneRefresh c3Url c3FetchOp c3Requery).fetchUrls.length = 2 ↔
       (c3FetchOp 0 c3Url).success = false ∧
       (c3FetchOp 0 c3Url).httpStatus = some 403 ∧
       c3Requery.success = true) ∧
     ((zipOpWithOneRefresh c3Url c3FetchOp c3Requery).fetchUrls.length = 2 →
       (zipOpWithOneRefresh c3Url c3FetchOp c3Requery).finalResult =
         c3FetchOp 1 (pyOrStr c3Requery.zipDownloadUrl c3Url))) :=
  ⟨by decide, c3_single_pointer_refresh c3Url c3FetchOp c3Requery (by decide)⟩

/-!
## Claim C5
-/

theorem pollLoop_deadlineHit_inv (deadline : Nat) :
    ∀ (events : List PollEvent) (r : PollResp) (t : Nat),
    pollLoop deadline events = PollExit.deadlineHit r t →
    r.success = true ∧ isTerminalStatus r.status = false ∧ deadline ≤ t := by
  intro events
  induction events with
  | nil =>
    intro r t h
    simp [pollLoop] at h
  | cons e rest ih =>
    intro r t h
    unfold pollLoop at h
    split at h
    · exact PollExit.noConfusion h
    · split at h
      · exact PollExit.noConfusion h
      · split at h
        · rename_i hsucc hterm hdl
          simp only [PollExit.deadlineHit.injEq] at h
          obtain ⟨hr, ht⟩ := h
          subst hr
          subst ht
          refine ⟨?_, ?_, hdl⟩
          · cases hx : e.resp.success
            · exact absurd hx hsucc
            · rfl
          · cases hx : isTerminalStatus e.resp.status
            · rfl
            · exact absurd hx hterm
        · exact ih r t h

/-- C5: when the polling loop leaves through its deadline check without ever
observing a terminal status, the decision after polling is the
timeout-specific outcome (`timedOut`), a constructor distinct from the
generic `errorReturn` produced by a failed status query.  `finalTime` is the
later monotonic reading at the final check, so `t ≤ finalTime`. -/
theorem c5_deadline_yields_timeout (deadline finalTime : Nat)
    (events : List PollEvent) (r : PollResp) (t : Nat)
    (h1 : pollLoop deadline events = PollExit.deadlineHit r t)
    (h2 : t ≤ finalTime) :
    afterPolling deadline finalTime (pollLoop deadline events) =
      some WorkflowOutcome.timedOut := by
  obtain ⟨hs, hterm, hd⟩ := pollLoop_deadlineHit_inv deadline events r t h1
  rw [h1]
  have hf : deadline ≤ finalTime := le_trans hd h2
  simp [afterPolling, hf, hterm]

def c5Events : List PollEvent :=
  [⟨⟨true, ("queued".data)⟩, 4⟩, ⟨⟨true, ("processing".data)⟩, 12⟩]

/-- Witness for C5: two polls observe non-terminal statuses, the second one
past the deadline of 10; the outcome is the timeout kind. -/
theorem c5_deadline_yields_timeout_witness :
    pollLoop 10 c5Events = PollExit.deadlineHit ⟨true, ("processing".data)⟩ 12 ∧
    12 ≤ 13 ∧
    afterPolling 10 13 (pollLoop 10 c5Events) =
      some WorkflowOutcome.timedOut :=
  ⟨by decide, by decide,
   c5_deadline_yields_timeout 10 13 c5Events ⟨true, ("processing".data)⟩ 12
     (by decide) (by decide)⟩

/-!
## Claim C10
-/

theorem matchPatternsFrom_all_empty (nm : Str) :
    ∀ ps : List Str, (∀ p ∈ ps, p = ([] : Str)) →
    matchPatternsFrom nm ps = some false := by
  intro ps
  induction ps with
  | nil => intro _; rfl
  | cons p t ih =>
    intro hall
    have hp : p = [] := hall p (List.mem_cons_self p t)
    subst hp
    exact ih (fun q hq => hall q (List.mem_cons_of_mem _ hq))

theorem matchPatternsFrom_append_empty (nm : Str) :
    ∀ ps : List Str,
    matchPatternsFrom nm (ps ++ [([] : Str)]) = matchPatternsFrom nm ps := by
  intro ps
  induction ps with
  | nil => rfl
  | cons p t ih =>
    simp only [List.cons_append, matchPatternsFrom]
    cases h : matchOneNorm nm p with
    | none => rfl
    | some b =>
      cases b with
      | true => rfl
      | false => exact ih

/-- C10: empty-string patterns are skipped by the matcher loop: a non-empty
list of only empty patterns matches no entry, and appending an empty pattern
to any list never changes the result for any entry. -/
theorem c10_empty_patterns_ignored :
    (∀ (name : Str) (ps : List Str), ps ≠ [] →
       (∀ p ∈ ps, p = ([] : Str)) → matchZipPatterns name ps = some false) ∧
    (∀ (name : Str) (ps : List Str),
       matchZipPatterns name (ps ++ [([] : Str)]) = matchZipPatterns name ps) := by
  constructor
  · intro name ps hne hall
    unfold matchZipPatterns
    rw [if_neg hne]
    exact matchPatternsFrom_all_empty (normEntryName name) ps hall
  · intro name ps
    unfold matchZipPatterns
    by_cases hps : ps = []
    · subst hps
      rfl
    · rw [if_neg hps, if_neg (by simp [hps])]
      exact matchPatternsFrom_append_empty (normEntryName name) ps

/-- Witness for C10 on a concrete entry name and a list of two empty
patterns. -/
theorem c10_empty_patterns_ignored_witness :
    ([([] : Str), ([] : Str)] : List Str) ≠ [] ∧
    matchZipPatterns ("processed-csv/a.csv".data) [([] : Str), ([] : Str)] =
      some false :=
  ⟨by decide,
   (c10_empty_patterns_ignored).1 ("processed-csv/a.csv".data) [[], []]
     (by decide) (by decide)⟩

/-!
## Claim C4
-/

theorem matchPatternsFrom_true_iff (nm : Str) :
    ∀ ps : List Str, (∀ p ∈ ps, matchOneNorm nm p ≠ none) →
    (matchPatternsFrom nm ps = some true ↔
     ∃ p ∈ ps, matchOneNorm nm p = some true) := by
  intro ps
  induction ps with
  | nil =>
    intro _
    simp [matchPatternsFrom]
  | cons p t ih =>
    intro hall
    simp only [matchPatternsFrom]
    cases h : matchOneNorm nm p with
    | none => exact absurd h (hall p (List.mem_cons_self p t))
    | some b =>
      cases b with
      | true =>
        constructor
        · intro _
          exact ⟨p, List.mem_cons_self p t, h⟩
        · intro _
          rfl
      | false =>
        rw [ih (fun q hq => hall q (List.mem_cons_of_mem _ hq))]
        constructor
        · intro ⟨q, hq, hmq⟩
          exact ⟨q, List.mem_cons_of_mem _ hq, hmq⟩
        · intro ⟨q, hq, hmq⟩
          rcases List.mem_cons.mp hq with hq1 | hq2
          · rw [← hq1] at h
            rw [h] at hmq
            simp at hmq
          · exact ⟨q, hq2, hmq⟩

/-- C4: (i) a pattern whose normalized form ends in `/**` matches the literal
stem itself and every entry nested at any depth beneath it; (ii) an entry
matches a pattern list iff it matches at least one pattern of the list
(logical OR), whenever no pattern raises; (iii) concretely,
`processed-csv/**` matches `processed-csv/a.csv` and
`processed-csv/nested/b.csv` but neither `other/processed-csv-like/c.csv`
nor `processed-csv.txt`. -/
theorem c4_globstar_matching :
    (∀ (name pattern : Str), pattern ≠ [] →
       (['/', '*', '*'] : Str).isSuffixOf (normEntryName pattern) = true →
       (normEntryName name =
          (normEntryName pattern).take ((normEntryName pattern).length - 3) ∨
        ((normEntryName pattern).take ((normEntryName pattern).length - 3)
          ++ ['/']).isPrefixOf (normEntryName name) = true) →
       matchOnePattern name pattern = some true) ∧
    (∀ (name : Str) (ps : List Str),
       (∀ p ∈ ps, matchOnePattern name p ≠ none) →
       (matchZipPatterns name ps = some true ↔
        ∃ p ∈ ps, matchOnePattern name p = some true)) ∧
    (matchZipPatterns ("processed-csv/a.csv".data)
       [("processed-csv/**".data)] = some true ∧
     matchZipPatterns ("processed-csv/nested/b.csv".data)
       [("processed-csv/**".data)] = some true ∧
     matchZipPatterns ("other/processed-csv-like/c.csv".data)
       [("processed-csv/**".data)] = some false ∧
     matchZipPatterns ("processed-csv.txt".data)
       [("processed-csv/**".data)] = some false) := by
  refine ⟨?_, ?_, by decide, by decide, by decide, by decide⟩
  · intro name pattern hne hsuf hdisj
    unfold matchOnePattern matchOneNorm
    rw [if_neg hne]
    have hns : ¬(normEntryName pattern = ['*', '*'] ∨
        normEntryName pattern = ['*', '*', '/', '*']) := by
      rintro (hq | hq)
      · rw [hq] at hsuf
        exact absurd hsuf (by decide)
      · rw [hq] at hsuf
        exact absurd hsuf (by decide)
    rw [if_neg hns, if_pos hsuf, if_pos hdisj]
  · intro name ps hall
    unfold matchZipPatterns
    by_cases hps : ps = []
    · subst hps
      simp
    · rw [if_neg hps]
      exact matchPatternsFrom_true_iff (normEntryName name) ps hall

/-- Witness for C4 on a concrete nested entry and the globstar pattern. -/
theorem c4_globstar_matching_witness :
    (("processed-csv/**".data) : Str) ≠ [] ∧
    (['/', '*', '*'] : Str).isSuffixOf
      (normEntryName ("processed-csv/**".data)) = true ∧
    matchOnePattern ("processed-csv/sub/x.csv".data)
      ("processed-csv/**".data) = some true :=
  ⟨by decide, by decide,
   (c4_globstar_matching).1 ("processed-csv/sub/x.csv".data)
     ("processed-csv/**".data) (by decide) (by decide) (by decide)⟩

/-!
## Claim C6
-/

theorem extractZipPointer_eq_legacy (payload : List (Str × JVal))
    (hC : hasCanonicalPointer payload = false) :
    extractZipPointer payload = legacyPointer payload := by
  cases h1 : jget payload ("outputs".data) with
  | none => simp [extractZipPointer, h1]
  | some v =>
    cases v with
    | jobj outs =>
      cases h2 : jget outs ("download_url".data) with
      | none => simp [extractZipPointer, h1, h2]
      | some w =>
        cases w with
        | jstr dl =>
          have hf : pyStripTruthy dl = false := by
            unfold hasCanonicalPointer at hC
            simp only [h1, h2] at hC
            exact hC
          simp [extractZipPointer, h1, h2, hf]
        | jnull => simp [extractZipPointer, h1, h2]
        | jbool b => simp [extractZipPointer, h1, h2]
        | jnum n => simp [extractZipPointer, h1, h2]
        | jarr xs => simp [extractZipPointer, h1, h2]
        | jobj fs => simp [extractZipPointer, h1, h2]
    | jnull => simp [extractZipPointer, h1]
    | jbool b => simp [extractZipPointer, h1]
    | jnum n => simp [extractZipPointer, h1]
    | jstr s => simp [extractZipPointer, h1]
    | jarr xs => simp [extractZipPointer, h1]

def c6CexPayload : List (Str × JVal) :=
  [(("batchDownloads".data),
    JVal.jarr [JVal.jobj
      [(("type".data), JVal.jstr ("zip".data)),
       (("expiresAt".data), JVal.jstr ("2030-01-01T00:00:00Z".data))]])]

/-- Counterexample to C6 as stated: this payload has no canonical pointer and
its only legacy record is zip-typed but has no URL, so neither source yields
a URL — yet the returned pointer is not "both fields unset": the selected
record's expiry is still returned. -/
theorem c6_counterexample :
    hasCanonicalPointer c6CexPayload = false ∧
    (extractZipPointer c6CexPayload).zipDownloadUrl = none ∧
    (extractZipPointer c6CexPayload).zipPresignedExpiresAt =
      some ("2030-01-01T00:00:00Z".data) := by
  refine ⟨by decide, by decide, by decide⟩

def c6ZipRecord : JVal :=
  JVal.jobj
    [(("type".data), JVal.jstr ("ZIP".data)),
     (("downloadUrl".data), JVal.jstr ("https://x/batch.zip".data)),
     (("expiresAt".data), JVal.jstr ("2031-01-01T00:00:00Z".data))]

def c6Bds : List JVal :=
  [JVal.jobj
     [(("type".data), JVal.jstr ("xlsx".data)),
      (("downloadUrl".data), JVal.jstr ("https://x/f.xlsx".data))],
   c6ZipRecord]

def c6WPayload : List (Str × JVal) :=
  [(("batchDownloads".data), JVal.jarr c6Bds)]

/-- C6 amended: without a canonical pointer, the resolver uses the first
zip-typed record of `batchDownloads` (case-insensitively), else the first
record whose URL ends in `.zip` case-insensitively; when no record is
selected it returns both fields unset (still not an error — a plain value);
when a record is selected, its URL and expiry are extracted independently,
so a selected record lacking a non-blank URL still contributes its expiry
while the URL stays unset. -/
theorem c6_legacy_fallback (payload : List (Str × JVal)) (bds : List JVal)
    (hC : hasCanonicalPointer payload = false)
    (hB : jget payload ("batchDownloads".data) = some (JVal.jarr bds)) :
    (∀ v, bds.find? isZipTypedRecord = some v →
       extractZipPointer payload =
         ⟨recordStrField v ("downloadUrl".data),
          recordStrField v ("expiresAt".data)⟩) ∧
    (bds.find? isZipTypedRecord = none →
       ∀ v, bds.find? isZipUrlRecord = some v →
       extractZipPointer payload =
         ⟨recordStrField v ("downloadUrl".data),
          recordStrField v ("expiresAt".data)⟩) ∧
    (bds.find? isZipTypedRecord = none → bds.find? isZipUrlRecord = none →
       extractZipPointer payload = ⟨none, none⟩) := by
  have heq : extractZipPointer payload = legacyPointer payload :=
    extractZipPointer_eq_legacy payload hC
  refine ⟨?_, ?_, ?_⟩
  · intro v hv
    rw [heq]
    simp [legacyPointer, hB, legacyZipEntry, hv]
  · intro hnone v hv
    rw [heq]
    simp [legacyPointer, hB, legacyZipEntry, hnone, hv]
  · intro h1 h2
    rw [heq]
    simp [legacyPointer, hB, legacyZipEntry, h1, h2]

/-- Witness for the amended C6: a list with a non-zip record first and an
uppercase-typed ZIP record second resolves to the ZIP record's URL and
expiry. -/
theorem c6_legacy_fallback_witness :
    hasCanonicalPointer c6WPayload = false ∧
    extractZipPointer c6WPayload =
      ⟨recordStrField c6ZipRecord ("downloadUrl".data),
       recordStrField c6ZipRecord ("expiresAt".data)⟩ :=
  ⟨by decide,
   (c6_legacy_fallback c6WPayload c6Bds (by decide) rfl).1 c6ZipRecord rfl⟩

/-!
## Claim C7
-/

def c7Dir : List Str := [("out".data)]

def c7Pats : List Str := [("processed-csv/**".data)]

def c7Infos : List ZipInfo := [⟨("../evil.csv".data), 4, 4⟩]

/-- Counterexample to C7 as stated: the member `../evil.csv` matches no
pattern in the list, yet extraction records a path-safety warning for it —
the pattern filter is NOT applied before the path-safety check. -/
theorem c7_counterexample :
    matchZipPatterns ("../evil.csv".data) c7Pats = some false ∧
    extractZipMembers c7Dir c7Pats c7Infos =
      some ⟨[], [⟨("zip_slip_skipped".data), ("../evil.csv".data),
                  ("unsafe_member_name".data)⟩]⟩ :=
  ⟨by decide, by decide⟩

/-- C7 amended: a member whose name passes the path-safety check and is not
a directory entry is skipped silently (the accumulated outcome is unchanged,
so no warning) when it matches no pattern; but the path-safety check fires
before the pattern filter, so an unsafe-named member always receives a
path-safety warning, even if it matches no pattern. -/
theorem c7_filter_silent_after_safety (dir pats : List Str)
    (acc : ExtractOutcome) (info : ZipInfo) (s : Str)
    (h1 : safeZipMemberName (replaceChar backslashChar '/' info.filename) =
      some s)
    (h2 : zipInfoIsDir info = false)
    (h3 : matchZipPatterns s pats = some false) :
    (memberAction dir pats info = some MemberAction.skippedFiltered ∧
     extractStep dir pats acc info = some acc) ∧
    (∀ j : ZipInfo,
      safeZipMemberName (replaceChar backslashChar '/' j.filename) = none →
      extractStep dir pats acc j =
        some { acc with warnings := acc.warnings ++ [unsafeWarning j] }) := by
  have ha : memberAction dir pats info = some MemberAction.skippedFiltered := by
    simp [memberAction, h1, h2, h3]
  refine ⟨⟨ha, by simp [extractStep, ha]⟩, ?_⟩
  intro j hj
  exact extractStep_unsafeName dir pats acc j (memberAction_of_unsafeName dir pats j hj)

/-- Witness for the amended C7: a safe-named non-matching member leaves the
outcome unchanged. -/
theorem c7_filter_silent_after_safety_witness :
    safeZipMemberName
      (replaceChar backslashChar '/' ("notes/readme.txt".data)) =
      some ("notes/readme.txt".data) ∧
    zipInfoIsDir ⟨("notes/readme.txt".data), 1, 1⟩ = false ∧
    matchZipPatterns ("notes/readme.txt".data) c7Pats = some false ∧
    ((memberAction c7Dir c7Pats ⟨("notes/readme.txt".data), 1, 1⟩ =
        some MemberAction.skippedFiltered ∧
      extractStep c7Dir c7Pats ⟨[], []⟩ ⟨("notes/readme.txt".data), 1, 1⟩ =
        some ⟨[], []⟩) ∧
     (∀ j : ZipInfo,
       safeZipMemberName (replaceChar backslashChar '/' j.filename) = none →
       extractStep c7Dir c7Pats ⟨[], []⟩ j =
         some { ExtractOutcome.mk [] [] with
                warnings := [] ++ [unsafeWarning j] })) :=
  ⟨by decide, by decide, by decide,
   c7_filter_silent_after_safety c7Dir c7Pats ⟨[], []⟩
     ⟨("notes/readme.txt".data), 1, 1⟩ ("notes/readme.txt".data)
     (by decide) (by decide) (by decide)⟩

/-!
## Claim C8
-/

def c8Dir : List Str := [("out8".data)]

def c8Pats : List Str := [("processed-csv/**".data)]

def c8Infos : List ZipInfo := [⟨("processed-csv/".data), 0, 0⟩]

/-- Counterexample to C8 as stated: an explicit directory entry
`processed-csv/` appears in the manifest's `matched_entries`, but the
extraction engine never selects it (directory members are skipped before the
pattern filter), so the two matched sets differ. -/
theorem c8_counterexample :
    (buildZipManifest c8Pats c8Infos).map (fun m => m.2.map (fun e => e.name)) =
      some [("processed-csv/".data)] ∧
    c8Infos.filter (fun i => extractionSelects c8Dir c8Pats i) = [] :=
  ⟨by decide, by decide⟩

/-- C8 amended: parity holds on archives whose members are non-directory
entries with already-normalized safe names: for identical pattern input, the
names in the manifest's `matched_entries` coincide (in order) with the names
of the members the extraction engine selects.  Directory entries and
unsafe-named entries can be manifest-matched yet are never selected for
extraction. -/
theorem c8_parity_on_safe_members (dir pats : List Str) :
    ∀ (infos : List ZipInfo) (es ms : List ManifestEntry),
    (∀ i ∈ infos,
       safeZipMemberName (replaceChar backslashChar '/' i.filename) =
         some (replaceChar backslashChar '/' i.filename) ∧
       zipInfoIsDir i = false) →
    buildZipManifest pats infos = some (es, ms) →
    ms.map (fun e => e.name) =
      (infos.filter (fun i => extractionSelects dir pats i)).map
        (fun i => replaceChar backslashChar '/' i.filename) := by
  intro infos
  induction infos with
  | nil =>
    intro es ms hall hm
    simp only [buildZipManifest, Option.some.injEq, Prod.mk.injEq] at hm
    obtain ⟨hes, hms⟩ := hm
    subst hms
    simp
  | cons i t ih =>
    intro es ms hall hm
    obtain ⟨hsafe, hdir⟩ := hall i (List.mem_cons_self i t)
    simp only [buildZipManifest] at hm
    cases hmatch : matchZipPatterns (manifestEntryOf i).name pats with
    | none => rw [hmatch] at hm; simp at hm
    | some b =>
      rw [hmatch] at hm
      cases hrec : buildZipManifest pats t with
      | none => rw [hrec] at hm; simp at hm
      | some pr =>
        rw [hrec] at hm
        obtain ⟨es2, ms2⟩ := pr
        simp only [Option.some.injEq, Prod.mk.injEq] at hm
        obtain ⟨hes, hms⟩ := hm
        have hmatch2 : matchZipPatterns
            (replaceChar backslashChar '/' i.filename) pats = some b := hmatch
        have htail := ih es2 ms2
          (fun j hj => hall j (List.mem_cons_of_mem i hj)) hrec
        cases b with
        | false =>
          have hsel : extractionSelects dir pats i = false := by
            have hact : memberAction dir pats i =
                some MemberAction.skippedFiltered := by
              simp [memberAction, hsafe, hdir, hmatch2]
            simp [extractionSelects, hact]
          have hms2 : ms2 = ms := by simpa using hms
          rw [← hms2]
          rw [List.filter_cons_of_neg (by simp [hsel])]
          exact htail
        | true =>
          have hsel : extractionSelects dir pats i = true := by
            by_cases hg : resolveSegs (dir ++ posixParts
                (replaceChar backslashChar '/' i.filename)) ≠ resolveSegs dir ∧
                isAncestorOf (resolveSegs dir) (resolveSegs (dir ++ posixParts
                  (replaceChar backslashChar '/' i.filename))) = false
            · have hact : memberAction dir pats i =
                  some MemberAction.skippedEscape := by
                simp only [memberAction, hsafe, hdir, hmatch2]
                simp [hg]
              simp [extractionSelects, hact]
            · have hact : memberAction dir pats i =
                  some (MemberAction.extracted (resolveSegs (dir ++ posixParts
                    (replaceChar backslashChar '/' i.filename)))) := by
                simp only [memberAction, hsafe, hdir, hmatch2]
                simp [hg]
              simp [extractionSelects, hact]
          have hms2 : manifestEntryOf i :: ms2 = ms := by simpa using hms
          rw [← hms2]
          rw [List.filter_cons_of_pos (by simp [hsel])]
          simp only [List.map_cons]
          rw [htail]
          rfl

/-- Witness for the amended C8: one safe plain-file member matching the
pattern and one not matching it. -/
theorem c8_parity_on_safe_members_witness :
    (∀ i ∈ ([⟨("processed-csv/a.csv".data), 3, 2⟩,
             ⟨("notes/readme.txt".data), 5, 4⟩] : List ZipInfo),
       safeZipMemberName (replaceChar backslashChar '/' i.filename) =
         some (replaceChar backslashChar '/' i.filename) ∧
       zipInfoIsDir i = false) ∧
    ([⟨("processed-csv/a.csv".data), 3, 2,
       false⟩] : List ManifestEntry).map (fun e => e.name) =
      (([⟨("processed-csv/a.csv".data), 3, 2⟩,
         ⟨("notes/readme.txt".data), 5, 4⟩] : List ZipInfo).filter
        (fun i => extractionSelects c8Dir c8Pats i)).map
        (fun i => replaceChar backslashChar '/' i.filename) :=
  ⟨by decide,
   c8_parity_on_safe_members c8Dir c8Pats
     [⟨("processed-csv/a.csv".data), 3, 2⟩, ⟨("notes/readme.txt".data), 5, 4⟩]
     [⟨("processed-csv/a.csv".data), 3, 2, false⟩,
      ⟨("notes/readme.txt".data), 5, 4, false⟩]
     [⟨("processed-csv/a.csv".data), 3, 2, false⟩]
     (by decide) (by decide)⟩

/-!
## Claim C9
-/

def c9Url : Str :=
  ("https://bucket.s3.amazonaws.com/batch.zip?X-Amz-Signature=abc".data)

/-- Counterexample to C9 as stated: on a 401 answer from a URL detected as
pre-signed, `_download_processed_files_impl` retries that same URL with the
bearer Authorization header — so a bearer credential IS sent to a
presigned-detected URL. -/
theorem c9_counterexample :
    isPresignedS3Url c9Url = true ∧
    (downloadProcessedRequestsForUrl c9Url 401).any
      (fun r => isPresignedS3Url r.url && r.hasAuthHeader) = true :=
  ⟨by decide, by decide⟩

/-- C9 amended: the streaming fetcher attaches the bearer header iff the URL
is not detected as pre-signed and a non-empty API key is available (and so
never sends a bearer to a presigned-detected URL); the file-download tool
attaches the bearer to its first request iff the URL is not detected as
pre-signed, but when a presigned-detected URL answers 401 it issues exactly
one retry of that URL with the bearer header attached. -/
theorem c9_credential_gating :
    (∀ (url : Str) (k : Str),
       downloadZipAuthHeaders url (some k) =
         (if isPresignedS3Url url = false ∧ k ≠ [] then
            [(("Authorization".data), ("Bearer ".data) ++ k)] else [])) ∧
    (∀ url : Str, downloadZipAuthHeaders url none = []) ∧
    (∀ (url : Str) (st : Int),
       (downloadProcessedRequestsForUrl url st).head? =
         some ⟨url, !(isPresignedS3Url url)⟩ ∧
       ((downloadProcessedRequestsForUrl url st).length = 2 ↔
         st = 401 ∧ isPresignedS3Url url = true) ∧
       ((downloadProcessedRequestsForUrl url st).length = 2 →
         (downloadProcessedRequestsForUrl url st).getLast? =
           some ⟨url, true⟩)) := by
  refine ⟨?_, ?_, ?_⟩
  · intro url k
    unfold downloadZipAuthHeaders
    by_cases hp : isPresignedS3Url url
    · simp [hp]
    · by_cases hk : k = []
      · simp [hp, hk]
      · simp [hp, hk]
  · intro url
    unfold downloadZipAuthHeaders
    by_cases hp : isPresignedS3Url url
    · simp [hp]
    · simp [hp]
  · intro url st
    unfold downloadProcessedRequestsForUrl
    by_cases hc : st = 401 ∧ isPresignedS3Url url = true
    · rw [if_pos (by simpa using hc)]
      refine ⟨by simp [hc.2], by simp [hc], by simp⟩
    · rw [if_neg (by simpa using hc)]
      refine ⟨by simp, ?_, by intro hl; simp at hl⟩
      constructor
      · intro hl
        simp at hl
      · intro hx
        exact absurd hx hc

/-- Witness for the amended C9: the concrete presigned URL answered 401 gets
exactly one authorized retry. -/
theorem c9_credential_gating_witness :
    (downloadProcessedRequestsForUrl c9Url 401).length = 2 ∧
    (downloadProcessedRequestsForUrl c9Url 401).getLast? =
      some ⟨c9Url, true⟩ :=
  ⟨by decide, ((c9_credential_gating).2.2 c9Url 401).2.2 (by decide)⟩
